import Mathlib

/- Verification of the VeloStudy document-processing pipeline (src/app.py).

   Python strings are modelled as lists of characters.  The regular
   expressions used by the source are implemented directly over such lists,
   following the leftmost, greedy, backtracking semantics of the re module;
   each implementation carries a comment explaining the correspondence.
   Rational numbers stand in for Python floats; the claims checked here only
   depend on exact arithmetic (zero versus nonzero, band membership at exact
   thresholds).  The generative model is an external collaborator: it is
   modelled as an oracle giving, for each call the orchestrator issues (in
   issue order), either the returned text or none for a raised exception. -/

/-- Python whitespace for the ASCII range, as recognised by str.strip,
str.split and the regex class backslash-s. -/
def isPySpace (c : Char) : Bool :=
  c == ' ' || c == '\t' || c == '\n' || c == '\r' || c == '\x0b' || c == '\x0c'

/-- str.strip with no arguments: remove leading and trailing whitespace. -/
def pyStrip (s : List Char) : List Char :=
  (((s.dropWhile isPySpace).reverse).dropWhile isPySpace).reverse

/-- Helper for pySplitWs: the accumulator holds the current word reversed. -/
def pySplitWsAux : List Char → List Char → List (List Char)
  | acc, [] => if acc = [] then [] else [acc.reverse]
  | acc, c :: cs =>
    if isPySpace c then
      if acc = [] then pySplitWsAux [] cs else acc.reverse :: pySplitWsAux [] cs
    else pySplitWsAux (c :: acc) cs

/-- str.split with no arguments: the maximal runs of non-whitespace
characters, with no empty words. -/
def pySplitWs (s : List Char) : List (List Char) := pySplitWsAux [] s

/-- Terminal sentence punctuation, the regex class of dot, bang, question
mark. -/
def isTerm (c : Char) : Bool := c == '.' || c == '!' || c == '?'

/-- Number of maximal runs of terminal punctuation; the Bool records whether
the previous character was terminal punctuation.  This is the length of the
list returned by re.findall for the pattern one-or-more-of [.!?]. -/
def termRunsAux : Bool → List Char → Nat
  | _, [] => 0
  | inside, c :: cs =>
    if isTerm c then (if inside then 0 else 1) + termRunsAux true cs
    else termRunsAux false cs

/-- Sentence count of analyze_text_complexity, src/app.py line 49. -/
def sentenceCount (s : List Char) : Nat := termRunsAux false s

/-- The suffix of a list after its last newline, or none when the list has no
newline. -/
def afterLastNl : List Char → Option (List Char)
  | [] => none
  | c :: cs => if c = '\n' then some ((afterLastNl cs).getD cs) else afterLastNl cs

/-- Scanner for re.split on the blank-line pattern (newline, then
whitespace-star, then newline).  A match of that pattern lies inside a
maximal whitespace run: it exists exactly when the run contains at least two
newlines, and by leftmost greedy matching with backtracking it then spans
from the first newline of the run to the last one; whitespace of the run
before its first newline belongs to the piece on the left, whitespace after
its last newline starts the piece on the right, and the leftover whitespace
contains no newline so one run never yields two matches.  The scanner keeps
the current piece reversed in acc and the current whitespace run reversed in
pendRev, and resolves the run when it ends (at a non-whitespace character or
at the end of the input). -/
def pyParaScan : List Char → List Char → List Char → List (List Char)
  | acc, pendRev, [] =>
    if 2 ≤ pendRev.count '\n' then
      [(((afterLastNl pendRev).getD []) ++ acc).reverse,
        (pendRev.takeWhile (fun d => !(d == '\n'))).reverse]
    else [(pendRev ++ acc).reverse]
  | acc, pendRev, c :: cs =>
    if isPySpace c then pyParaScan acc (c :: pendRev) cs
    else if 2 ≤ pendRev.count '\n' then
      ((((afterLastNl pendRev).getD []) ++ acc).reverse) ::
        pyParaScan (c :: pendRev.takeWhile (fun d => !(d == '\n'))) [] cs
    else pyParaScan (c :: (pendRev ++ acc)) [] cs

/-- re.split on the blank-line pattern, src/app.py lines 52 and 91. -/
def pyParaSplit (s : List Char) : List (List Char) := pyParaScan [] [] s

/-- Scanner counting the matches of re.findall, in MULTILINE mode, for the
heading pattern: line start, one capital letter, a greedy run of characters
other than terminal punctuation (the run may cross newlines), then a line
boundary.  Matches never cross terminal punctuation, so the input splits
into zones at terminal characters.  Within a zone, an attempt starts at the
first line-start capital; it succeeds when the zone reaches the end of the
input, or when a newline follows the attempt inside the zone (the greedy run
then backtracks to the last such newline); after a success the leftover of
the zone contains no newline and cannot start another match, so each zone
contributes at most one match.  The scanner keeps three flags: whether the
position is a line start, whether the current zone has an open attempt, and
whether that attempt has already seen a following newline. -/
def headingScan : Bool → Bool → Bool → List Char → Nat
  | _, attempt, _, [] => if attempt then 1 else 0
  | atStart, attempt, counted, c :: cs =>
    if isTerm c then (if counted then 1 else 0) + headingScan false false false cs
    else if c = '\n' then headingScan true attempt (counted || attempt) cs
    else headingScan false (attempt || (atStart && c.isUpper)) counted cs

/-- Heading count of analyze_text_complexity, src/app.py line 55. -/
def headingCount (s : List Char) : Nat := headingScan true false false s

/-- The record returned by analyze_text_complexity. -/
structure TextStats where
  word_count : Nat
  char_count : Nat
  sentence_count : Nat
  paragraph_count : Nat
  potential_headings : Nat
  complexity_score : ℚ
deriving DecidableEq, Repr

/-- Embeds analyze_text_complexity, src/app.py lines 43 to 72.  The
complexity score is computed in exact rational arithmetic. -/
def analyze_text_complexity (text : List Char) : TextStats :=
  { word_count := (pySplitWs text).length
    char_count := text.length
    sentence_count := sentenceCount text
    paragraph_count := (pyParaSplit (pyStrip text)).length
    potential_headings := headingCount text
    complexity_score :=
      ((pySplitWs text).length : ℚ) / 100 * 0.4 +
        ((sentenceCount text : ℚ) / 10) * 0.3 +
        (((pyParaSplit (pyStrip text)).length : ℚ) / 5) * 0.2 +
        ((headingCount text : ℚ) / 3) * 0.1 }

/-- The configuration dictionary returned by determine_mindmap_depth. -/
structure MindmapConfig where
  max_levels : Nat
  detail_level : String
  expand_level : Nat
deriving DecidableEq, Repr

/-- Embeds determine_mindmap_depth, src/app.py lines 74 to 83. -/
def determine_mindmap_depth (complexity_score : ℚ) : MindmapConfig :=
  if complexity_score < 5 then
    { max_levels := 3, detail_level := "basic", expand_level := 2 }
  else if complexity_score < 15 then
    { max_levels := 4, detail_level := "moderate", expand_level := 2 }
  else if complexity_score < 30 then
    { max_levels := 5, detail_level := "detailed", expand_level := 1 }
  else
    { max_levels := 6, detail_level := "comprehensive", expand_level := 1 }

/-- The paragraph separator appended by the chunking loop. -/
def nl2 : List Char := ['\n', '\n']

/-- The paragraph-packing loop of chunk_text_intelligently, src/app.py
lines 92 to 104: the first list argument holds the remaining paragraphs and
the second the running buffer. -/
def chunkLoop (maxSize : Nat) : List (List Char) → List Char → List (List Char)
  | [], current => if current = [] then [] else [pyStrip current]
  | p :: ps, current =>
    if current.length + p.length ≤ maxSize then
      chunkLoop maxSize ps (current ++ (p ++ nl2))
    else
      (if current = [] then [] else [pyStrip current]) ++ chunkLoop maxSize ps (p ++ nl2)

/-- Embeds chunk_text_intelligently, src/app.py lines 85 to 106.  The source
gives max_chunk_size the default value 25000; every caller in the source
passes 25000 explicitly. -/
def chunk_text_intelligently (text : List Char) (max_chunk_size : Nat) : List (List Char) :=
  if text.length ≤ max_chunk_size then [text]
  else chunkLoop max_chunk_size (pyParaSplit text) []

/-- Scanner for str.split with a fixed non-empty separator word (the first
character s0, then srest): at each position, either the separator starts
here (leftmost match; the current piece is closed and skip is set so that
the remaining separator characters are consumed, giving non-overlapping
matches), or the character joins the current piece.  Empty pieces are kept,
exactly as str.split keeps them. -/
def pySplitWordAux (s0 : Char) (srest : List Char) : Nat → List Char → List Char → List (List Char)
  | 0, acc, [] => [acc.reverse]
  | _ + 1, acc, [] => [acc.reverse]
  | k + 1, acc, _ :: cs => pySplitWordAux s0 srest k acc cs
  | 0, acc, c :: cs =>
    if (s0 :: srest).isPrefixOf (c :: cs) then
      acc.reverse :: pySplitWordAux s0 srest srest.length [] cs
    else pySplitWordAux s0 srest 0 (c :: acc) cs

/-- str.split with an explicit separator string, as used on the markers
CARD and QUESTION and on single newlines.  The source never splits on an
empty separator; that case is mapped to the one-piece result. -/
def pySplit (sep : List Char) (s : List Char) : List (List Char) :=
  match sep with
  | [] => [s]
  | c :: cs => pySplitWordAux c cs 0 [] s

/-- A parsed flashcard: a question and an answer. -/
structure Flashcard where
  question : List Char
  answer : List Char
deriving DecidableEq, Repr

/-- The body of the line loop of create_flashcards, src/app.py lines
524 to 528: each line starting with the question marker overwrites the
question variable, each line starting with the answer marker overwrites the
answer variable. -/
def qaStep (qa : List Char × List Char) (line : List Char) : List Char × List Char :=
  if ("Q:".data).isPrefixOf line then (pyStrip (line.drop 2), qa.2)
  else if ("A:".data).isPrefixOf line then (qa.1, pyStrip (line.drop 2))
  else qa

/-- One block of the flashcard response, src/app.py lines 519 to 531: the
block is stripped and split into lines, the line loop is folded over the
lines, and a card is kept only when both resulting strings are non-empty. -/
def cardOfBlock (block : List Char) : Option Flashcard :=
  let lines := pySplit ['\n'] (pyStrip block)
  let qa := lines.foldl qaStep ([], [])
  if qa.1 ≠ [] ∧ qa.2 ≠ [] then some { question := qa.1, answer := qa.2 } else none

/-- The flashcard response parser of create_flashcards, src/app.py lines
515 to 531: split on the marker CARD, drop the text before the first
marker, parse each block. -/
def parse_flashcards (respText : List Char) : List Flashcard :=
  ((pySplit ("CARD".data) respText).drop 1).filterMap cardOfBlock

/-- Embeds create_flashcards, src/app.py lines 490 to 537.  The argument is
the response of the single model call: none models a raised exception
(caught by the source, which then returns None), some t models a returned
text t.  The source text and the card count shape only the prompt, which
the model oracle abstracts, so they do not appear here.  An empty response
text returns None before any parsing. -/
def create_flashcards (response : Option (List Char)) : Option (List Flashcard) :=
  match response with
  | none => none
  | some t => if t = [] then none else some (parse_flashcards t)

/-- The record returned by create_summary. -/
structure SummaryResult where
  summary : List Char
  actual_word_count : Nat
  target_word_count : Nat
deriving DecidableEq, Repr

/-- Embeds create_summary, src/app.py lines 539 to 585.  The first argument
is the requested word count, the second the response of the single model
call (none for a raised exception).  The summary-type label computed by the
source from the word count shapes only the prompt, which the model oracle
abstracts.  The returned summary is the stripped response text and the
actual word count is the number of whitespace-separated words of that
stripped text. -/
def create_summary (word_count : Nat) (response : Option (List Char)) : Option SummaryResult :=
  match response with
  | none => none
  | some t =>
    if t = [] then none
    else
      some { summary := pyStrip t
             actual_word_count := (pySplitWs (pyStrip t)).length
             target_word_count := word_count }

/-- A parsed quiz question: question text, collected option lines, correct
label, explanation. -/
structure QuizQuestion where
  question : List Char
  options : List (List Char)
  correct : List Char
  explanation : List Char
deriving DecidableEq, Repr

/-- The body of the line loop of create_quiz, src/app.py lines 641 to 649:
question, correct and explanation lines overwrite the respective field, and
every line starting with one of the four option labels is appended to the
option list in encountered order. -/
def quizStep (qd : QuizQuestion) (line : List Char) : QuizQuestion :=
  if ("Q:".data).isPrefixOf line then { qd with question := pyStrip (line.drop 2) }
  else if ("A)".data).isPrefixOf line || ("B)".data).isPrefixOf line ||
      ("C)".data).isPrefixOf line || ("D)".data).isPrefixOf line then
    { qd with options := qd.options ++ [line] }
  else if ("CORRECT:".data).isPrefixOf line then { qd with correct := pyStrip (line.drop 8) }
  else if ("EXPLANATION:".data).isPrefixOf line then { qd with explanation := pyStrip (line.drop 12) }
  else qd

/-- One block of the quiz response, src/app.py lines 631 to 652: the block
is stripped, split into lines, each line stripped and empty lines removed,
the line loop is folded, and the block is accepted only when the question is
non-empty and exactly four option lines were collected. -/
def questionOfBlock (block : List Char) : Option QuizQuestion :=
  let lines := (pySplit ['\n'] (pyStrip block)).filterMap
    (fun l => if pyStrip l = [] then none else some (pyStrip l))
  let qd := lines.foldl quizStep { question := [], options := [], correct := [], explanation := [] }
  if qd.question ≠ [] ∧ qd.options.length = 4 then some qd else none

/-- The quiz response parser of create_quiz, src/app.py lines 627 to 652:
split on the marker QUESTION, drop the text before the first marker, parse
each block. -/
def parse_quiz (respText : List Char) : List QuizQuestion :=
  ((pySplit ("QUESTION".data) respText).drop 1).filterMap questionOfBlock

/-- Embeds create_quiz, src/app.py lines 587 to 658.  The argument is the
response of the single model call, with the same conventions as
create_flashcards. -/
def create_quiz (response : Option (List Char)) : Option (List QuizQuestion) :=
  match response with
  | none => none
  | some t => if t = [] then none else some (parse_quiz t)

/-- Outcome of one run of create_mindmap_markdown: the returned value and
whether the consolidation model call was issued. -/
structure MindmapOutcome where
  result : Option (List Char)
  consolidationIssued : Bool
deriving DecidableEq, Repr

/-- The per-chunk call loop of create_mindmap_markdown, src/app.py lines
207 to 214: one model call per chunk, in chunk order; a response whose
stripped text is non-empty contributes that stripped text, in order.  The
oracle maps the index of a call (in issue order, starting at k) to its
response; none models a raised exception, which aborts the whole function
(the surrounding try returns None), so the loop result is none and no
further call is issued.  On success the collected texts and the next call
index are returned. -/
def runChunkCalls (oracle : Nat → Option (List Char)) : Nat → List (List Char) → Option (List (List Char) × Nat)
  | k, [] => some ([], k)
  | k, _ :: rest =>
    match oracle k with
    | none => none
    | some t =>
      match runChunkCalls oracle (k + 1) rest with
      | none => none
      | some (ms, k2) => some ((if pyStrip t = [] then [] else [pyStrip t]) ++ ms, k2)

/-- Embeds create_mindmap_markdown, src/app.py lines 179 to 245.  The
source first runs analyze_text_complexity and determine_mindmap_depth;
their results shape only the displayed info box and the prompt strings,
which the call-indexed model oracle abstracts, so they do not influence the
outcome recorded here.  The text is chunked with the maximum chunk size
25000 used by the source.  With more than one chunk, one call is issued per
chunk and then the consolidation call is always issued on the joined
collected texts; the result is the stripped consolidation text, or none
when that response text is empty.  With one chunk (or none), a single call
is issued and the result is its stripped text, or none when the response
text is empty or whitespace-only.  A raised exception anywhere (none from
the oracle) gives the result none. -/
def create_mindmap_markdown (text : List Char) (oracle : Nat → Option (List Char)) : MindmapOutcome :=
  let chunks := chunk_text_intelligently text 25000
  if 1 < chunks.length then
    match runChunkCalls oracle 0 chunks with
    | none => { result := none, consolidationIssued := false }
    | some (_all_mindmaps, k) =>
      match oracle k with
      | none => { result := none, consolidationIssued := true }
      | some t =>
        { result := if t = [] then none else some (pyStrip t), consolidationIssued := true }
  else
    match oracle 0 with
    | none => { result := none, consolidationIssued := false }
    | some t =>
      if pyStrip t = [] then { result := none, consolidationIssued := false }
      else { result := some (pyStrip t), consolidationIssued := false }

/-- Content of the last line of a line list that starts with the given
marker: the stripped text after the marker, or the empty string when no
line starts with the marker.  This is the value left in the corresponding
variable by the overwrite loop of the source parsers. -/
def lastPrefixContent (pre : List Char) (lines : List (List Char)) : List Char :=
  (((lines.filter (fun l => pre.isPrefixOf l)).getLast?).map
    (fun l => pyStrip (l.drop pre.length))).getD []

/-- Follows the specification wording for flashcard blocks, for comparison
with the source behaviour: use the FIRST line starting with the question
marker and the FIRST line starting with the answer marker, and keep the
card only when both extracted contents are non-empty. -/
def cardOfBlockSpecFirst (block : List Char) : Option Flashcard :=
  let lines := pySplit ['\n'] (pyStrip block)
  match lines.find? (fun l => ("Q:".data).isPrefixOf l),
      lines.find? (fun l => ("A:".data).isPrefixOf l) with
  | some lq, some la =>
    if pyStrip (lq.drop 2) ≠ [] ∧ pyStrip (la.drop 2) ≠ [] then
      some { question := pyStrip (lq.drop 2), answer := pyStrip (la.drop 2) }
    else none
  | _, _ => none

/-- The flashcard parser as the specification words it (first occurrence of
each marker), for comparison with parse_flashcards. -/
def parse_flashcards_specFirst (respText : List Char) : List Flashcard :=
  ((pySplit ("CARD".data) respText).drop 1).filterMap cardOfBlockSpecFirst

/-- True when the list is non-empty and its first character is not
whitespace. -/
def headOk (l : List Char) : Bool :=
  match l.head? with
  | some c => !(isPySpace c)
  | none => false

/-- True when the list is non-empty and neither starts nor ends with
whitespace, so that str.strip leaves it unchanged. -/
def okPara (p : List Char) : Bool := headOk p && headOk p.reverse

/-- The buffer built by the chunking loop from a group of paragraphs: each
paragraph followed by the inserted blank-line separator. -/
def buf (g : List (List Char)) : List Char := (g.map (fun p => p ++ nl2)).flatten

/-- A group of paragraphs joined by the inserted blank-line separator, with
no trailing separator: the stripped form of the corresponding buffer. -/
def joinParas : List (List Char) → List Char
  | [] => []
  | [p] => p
  | p :: ps => p ++ nl2 ++ joinParas ps

/- Helper lemmas. -/

theorem q_prefix_not_a_prefix (l : List Char) (h : ("Q:".data).isPrefixOf l = true) :
    ("A:".data).isPrefixOf l = false := by
  rw [show ("Q:".data) = ['Q', ':'] from rfl] at h
  rw [show ("A:".data) = ['A', ':'] from rfl]
  cases l with
  | nil => simp [List.isPrefixOf] at h
  | cons c cs =>
    simp [List.isPrefixOf] at h ⊢
    intro hc
    subst hc
    simp at h

theorem getD_map_getLast_cons {α β : Type} (f : α → β) (d : β) (x : α) (xs : List α) :
    (((x :: xs).getLast?).map f).getD d = ((xs.getLast?).map f).getD (f x) := by
  cases xs with
  | nil => simp
  | cons y ys =>
    rw [List.getLast?_cons_cons]
    cases h : (y :: ys).getLast? with
    | none => simp [List.getLast?_eq_none_iff] at h
    | some z => simp [h]

theorem foldl_qaStep (lines : List (List Char)) (q0 a0 : List Char) :
    lines.foldl qaStep (q0, a0) =
      ((((lines.filter (fun l => ("Q:".data).isPrefixOf l)).getLast?).map
          (fun l => pyStrip (l.drop 2))).getD q0,
       (((lines.filter (fun l => ("A:".data).isPrefixOf l)).getLast?).map
          (fun l => pyStrip (l.drop 2))).getD a0) := by
  induction lines generalizing q0 a0 with
  | nil => simp
  | cons l rest ih =>
    by_cases hq : ("Q:".data).isPrefixOf l
    · have ha : ("A:".data).isPrefixOf l = false := q_prefix_not_a_prefix l hq
      rw [List.foldl_cons]
      rw [show qaStep (q0, a0) l = (pyStrip (l.drop 2), a0) from by simp [qaStep, hq]]
      rw [ih]
      rw [List.filter_cons_of_pos hq, List.filter_cons_of_neg (by simp [ha])]
      rw [getD_map_getLast_cons]
    · by_cases ha : ("A:".data).isPrefixOf l
      · rw [List.foldl_cons]
        rw [show qaStep (q0, a0) l = (q0, pyStrip (l.drop 2)) from by simp [qaStep, hq, ha]]
        rw [ih]
        rw [List.filter_cons_of_neg (by simp [hq]), List.filter_cons_of_pos ha]
        rw [getD_map_getLast_cons]
      · rw [List.foldl_cons]
        rw [show qaStep (q0, a0) l = (q0, a0) from by simp [qaStep, hq, ha]]
        rw [ih]
        rw [List.filter_cons_of_neg (by simp [hq]), List.filter_cons_of_neg (by simp [ha])]

theorem runChunkCalls_none_oracle (k : Nat) (c : List Char) (rest : List (List Char)) :
    runChunkCalls (fun _ => none) k (c :: rest) = none := by
  simp [runChunkCalls]

theorem analyze_nil_score : (analyze_text_complexity []).complexity_score = 0.04 := by
  have h1 : (pySplitWs ([] : List Char)).length = 0 := rfl
  have h2 : sentenceCount [] = 0 := rfl
  have h3 : (pyParaSplit (pyStrip [])).length = 1 := rfl
  have h4 : headingCount [] = 0 := rfl
  simp only [analyze_text_complexity, h1, h2, h3, h4]
  norm_num

/- Claim theorems. -/

/-- C2 counterexample: analyze applied to the empty string does not return
all-zero statistics; the paragraph count is 1 (re.split returns one empty
piece) and the complexity score is therefore 0.04, not 0. -/
theorem analyze_empty_not_all_zero :
    (analyze_text_complexity []).paragraph_count ≠ 0 ∧
    (analyze_text_complexity []).complexity_score ≠ 0 := by
  refine ⟨by decide, ?_⟩
  rw [analyze_nil_score]
  norm_num

/-- C2 amended: analyze applied to the empty string returns, without error,
word count 0, character count 0, sentence count 0, heading count 0, but
paragraph count 1 (the floor produced by re.split on an empty string) and
complexity score 0.04 = 0.2 times one fifth (a nonzero value, exactly 1/25
in exact arithmetic). -/
theorem analyze_empty_stats :
    (analyze_text_complexity []).word_count = 0 ∧
    (analyze_text_complexity []).char_count = 0 ∧
    (analyze_text_complexity []).sentence_count = 0 ∧
    (analyze_text_complexity []).paragraph_count = 1 ∧
    (analyze_text_complexity []).potential_headings = 0 ∧
    (analyze_text_complexity []).complexity_score = 0.04 :=
  ⟨rfl, rfl, rfl, rfl, rfl, analyze_nil_score⟩

/-- C5: determine_mindmap_depth is a pure total function of the score with
the four half-open bands of the specification table; every boundary value
belongs to the higher band, scores below 5 (negative ones included) give
the basic configuration, and any two scores of the same band give the same
configuration, each band being mapped to one constant record. -/
theorem determine_mindmap_depth_bands (s : ℚ) :
    (s < 5 →
      determine_mindmap_depth s = { max_levels := 3, detail_level := "basic", expand_level := 2 }) ∧
    (5 ≤ s → s < 15 →
      determine_mindmap_depth s = { max_levels := 4, detail_level := "moderate", expand_level := 2 }) ∧
    (15 ≤ s → s < 30 →
      determine_mindmap_depth s = { max_levels := 5, detail_level := "detailed", expand_level := 1 }) ∧
    (30 ≤ s →
      determine_mindmap_depth s = { max_levels := 6, detail_level := "comprehensive", expand_level := 1 }) := by
  unfold determine_mindmap_depth
  refine ⟨fun h => ?_, fun h1 h2 => ?_, fun h1 h2 => ?_, fun h => ?_⟩ <;>
    split_ifs <;> first | rfl | linarith

/-- C5 witness: the boundary score 5 lies in the moderate band. -/
theorem determine_mindmap_depth_bands_witness :
    (5 : ℚ) ≤ 5 ∧ (5 : ℚ) < 15 ∧
      determine_mindmap_depth 5 = { max_levels := 4, detail_level := "moderate", expand_level := 2 } :=
  ⟨le_refl 5, by norm_num, (determine_mindmap_depth_bands 5).2.1 (le_refl 5) (by norm_num)⟩

/-- C7: a text no longer than the maximum chunk size is returned as the
single-element chunk list holding the whole text. -/
theorem chunk_small_text_identity (t : List Char) (maxSize : Nat) (h : t.length ≤ maxSize) :
    chunk_text_intelligently t maxSize = [t] := by
  unfold chunk_text_intelligently
  rw [if_pos h]

/-- C7 witness at a concrete small text. -/
theorem chunk_small_text_identity_witness :
    ("ab".data).length ≤ 5 ∧ chunk_text_intelligently ("ab".data) 5 = ["ab".data] :=
  ⟨by decide, chunk_small_text_identity ("ab".data) 5 (by decide)⟩

/-- C8: whenever create_summary returns a result, the result carries the
requested target word count unchanged, and its actual word count is the
number of whitespace-separated words of the returned summary text; no
equality between the two is enforced. -/
theorem create_summary_word_counts (wc : Nat) (resp : Option (List Char)) (r : SummaryResult)
    (h : create_summary wc resp = some r) :
    r.target_word_count = wc ∧ r.actual_word_count = (pySplitWs r.summary).length := by
  cases resp with
  | none => simp [create_summary] at h
  | some t =>
    by_cases ht : t = []
    · simp [create_summary, ht] at h
    · simp only [create_summary, if_neg ht] at h
      have := Option.some.inj h
      subst this
      exact ⟨rfl, rfl⟩

/-- C8 witness: a concrete three-word response against target 50. -/
theorem create_summary_word_counts_witness :
    create_summary 50 (some ("hello brave world".data)) =
      some { summary := "hello brave world".data, actual_word_count := 3, target_word_count := 50 } ∧
    ((⟨"hello brave world".data, 3, 50⟩ : SummaryResult).target_word_count = 50 ∧
      (⟨"hello brave world".data, 3, 50⟩ : SummaryResult).actual_word_count =
        (pySplitWs (⟨"hello brave world".data, 3, 50⟩ : SummaryResult).summary).length) :=
  ⟨by decide, create_summary_word_counts 50 (some ("hello brave world".data)) _ (by decide)⟩

/-- C9: when the model collaborator raises on every call, each generation
operation returns none instead of propagating a fault: flashcards, quiz and
summary return none, and the mindmap path returns none for every input
text; all embedded operations are total functions, so no failure terminates
the run. -/
theorem model_exception_returns_none (wc : Nat) (t : List Char) :
    create_flashcards none = none ∧ create_quiz none = none ∧
    create_summary wc none = none ∧
    (create_mindmap_markdown t (fun _ => none)).result = none := by
  refine ⟨rfl, rfl, rfl, ?_⟩
  simp only [create_mindmap_markdown]
  cases hc : chunk_text_intelligently t 25000 with
  | nil => simp
  | cons c rest =>
    cases rest with
    | nil => simp
    | cons c2 rest2 => simp [runChunkCalls_none_oracle]

/-- C10: quiz-block acceptance checks only the number of collected option
lines, not their labels or label order; a block whose four option lines all
carry the label of option A is accepted with those lines kept verbatim. -/
theorem quiz_options_labels_not_checked :
    parse_quiz ("QUESTION 1:\nQ: pick\nA) w\nA) x\nA) y\nA) z".data) =
      [{ question := "pick".data,
         options := ["A) w".data, "A) x".data, "A) y".data, "A) z".data],
         correct := [], explanation := [] }] := by decide

/-- C6: every accepted quiz question has a non-empty question text and
exactly four collected option lines; a block offering only three options is
rejected even when question, correct label and explanation are all present,
and a block with a question and four options is accepted even without
correct label and explanation. -/
theorem quiz_block_acceptance :
    (∀ resp qd, qd ∈ parse_quiz resp → qd.question ≠ [] ∧ qd.options.length = 4) ∧
    parse_quiz ("QUESTION 1:\nQ: capital?\nA) Paris\nB) Rome\nC) Berlin\nCORRECT: A\nEXPLANATION: geography".data) = [] ∧
    parse_quiz ("QUESTION 1:\nQ: capital?\nA) Paris\nB) Rome\nC) Berlin\nD) Madrid".data) =
      [{ question := "capital?".data,
         options := ["A) Paris".data, "B) Rome".data, "C) Berlin".data, "D) Madrid".data],
         correct := [], explanation := [] }] := by
  refine ⟨?_, by decide, by decide⟩
  intro resp qd hmem
  unfold parse_quiz at hmem
  rw [List.mem_filterMap] at hmem
  obtain ⟨block, _, hsome⟩ := hmem
  simp only [questionOfBlock] at hsome
  split at hsome
  · rename_i h
    have := Option.some.inj hsome
    subst this
    exact h
  · exact absurd hsome (by simp)

/-- C6 witness: a concrete accepted question returned by the parser. -/
theorem quiz_block_acceptance_witness :
    ((⟨"capital?".data, ["A) Paris".data, "B) Rome".data, "C) Berlin".data, "D) Madrid".data],
        [], []⟩ : QuizQuestion) ∈
        parse_quiz ("QUESTION 1:\nQ: capital?\nA) Paris\nB) Rome\nC) Berlin\nD) Madrid".data)) ∧
    ((⟨"capital?".data, ["A) Paris".data, "B) Rome".data, "C) Berlin".data, "D) Madrid".data],
        [], []⟩ : QuizQuestion).question ≠ [] ∧
      (⟨"capital?".data, ["A) Paris".data, "B) Rome".data, "C) Berlin".data, "D) Madrid".data],
        [], []⟩ : QuizQuestion).options.length = 4) :=
  ⟨by decide,
    quiz_block_acceptance.1
      ("QUESTION 1:\nQ: capital?\nA) Paris\nB) Rome\nC) Berlin\nD) Madrid".data) _ (by decide)⟩

/-- C3 counterexample: on a block holding two question lines the source
parser keeps the content of the last one, while the claim (first line
starting with the question marker) yields the first; the embedded source
parser and the parser following the claim wording disagree on this
response. -/
theorem flashcards_last_not_first_counterexample :
    parse_flashcards ("CARD 1:\nQ: one\nQ: two\nA: ans".data) =
      [{ question := "two".data, answer := "ans".data }] ∧
    parse_flashcards_specFirst ("CARD 1:\nQ: one\nQ: two\nA: ans".data) =
      [{ question := "one".data, answer := "ans".data }] := by decide

/-- C3 amended: flashcard parsing splits on the marker CARD, discards the
text before the first marker, and for each remaining block uses the LAST
line starting with the question marker and the LAST line starting with the
answer marker (the loop overwrites on every occurrence); a block
contributes a flashcard exactly when both finally retained contents are
non-empty, and a response with three well-formed blocks and one block
missing an answer line yields exactly three flashcards. -/
theorem parse_flashcards_last_occurrence :
    (∀ resp, parse_flashcards resp =
      ((pySplit ("CARD".data) resp).drop 1).filterMap (fun block =>
        if lastPrefixContent ("Q:".data) (pySplit ['\n'] (pyStrip block)) ≠ [] ∧
            lastPrefixContent ("A:".data) (pySplit ['\n'] (pyStrip block)) ≠ [] then
          some { question := lastPrefixContent ("Q:".data) (pySplit ['\n'] (pyStrip block)),
                 answer := lastPrefixContent ("A:".data) (pySplit ['\n'] (pyStrip block)) }
        else none)) ∧
    parse_flashcards
        ("CARD 1:\nQ: q1\nA: a1\nCARD 2:\nQ: q2\nA: a2\nCARD 3:\nQ: q3\nCARD 4:\nQ: q4\nA: a4".data) =
      [{ question := "q1".data, answer := "a1".data },
       { question := "q2".data, answer := "a2".data },
       { question := "q4".data, answer := "a4".data }] := by
  refine ⟨?_, by decide⟩
  intro resp
  unfold parse_flashcards
  congr 1
  funext block
  simp only [cardOfBlock, foldl_qaStep, lastPrefixContent,
    show ("Q:".data).length = 2 from rfl, show ("A:".data).length = 2 from rfl]

theorem headOk_append (x y : List Char) (h : headOk x = true) : headOk (x ++ y) = true := by
  cases x with
  | nil => simp [headOk] at h
  | cons c cs => simpa [headOk] using h

theorem dropWhile_of_headOk (l : List Char) (h : headOk l = true) :
    l.dropWhile isPySpace = l := by
  cases l with
  | nil => rfl
  | cons c cs =>
    have hc : isPySpace c = false := by simpa [headOk] using h
    simp [List.dropWhile_cons, hc]

theorem buf_cons (p : List Char) (g : List (List Char)) :
    buf (p :: g) = (p ++ nl2) ++ buf g := by simp [buf]

theorem buf_snoc (g : List (List Char)) (p : List Char) :
    buf (g ++ [p]) = buf g ++ (p ++ nl2) := by simp [buf]

theorem buf_eq_nil_iff (g : List (List Char)) : buf g = [] ↔ g = [] := by
  cases g with
  | nil => simp [buf]
  | cons p gs => simp [buf, nl2]

theorem buf_eq_joinParas (g : List (List Char)) (hg : g ≠ []) :
    buf g = joinParas g ++ nl2 := by
  induction g with
  | nil => exact absurd rfl hg
  | cons p gs ih =>
    cases gs with
    | nil => simp [buf, joinParas]
    | cons q rest =>
      rw [buf_cons, ih (by simp)]
      rw [show joinParas (p :: q :: rest) = p ++ nl2 ++ joinParas (q :: rest) from rfl]
      simp [List.append_assoc]

theorem okPara_joinParas (g : List (List Char)) (hg : g ≠ [])
    (h : ∀ p ∈ g, okPara p = true) : okPara (joinParas g) = true := by
  induction g with
  | nil => exact absurd rfl hg
  | cons p gs ih =>
    cases gs with
    | nil => exact h p (by simp)
    | cons q rest =>
      have hp := h p (by simp)
      have hj := ih (by simp) (fun x hx => h x (by simp [hx]))
      rw [show joinParas (p :: q :: rest) = p ++ (nl2 ++ joinParas (q :: rest)) from by
        rw [show joinParas (p :: q :: rest) = p ++ nl2 ++ joinParas (q :: rest) from rfl]
        simp [List.append_assoc]]
      simp only [okPara, Bool.and_eq_true] at hp hj ⊢
      constructor
      · exact headOk_append p _ hp.1
      · rw [List.reverse_append, List.reverse_append, List.append_assoc]
        exact headOk_append _ _ hj.2

theorem strip_append_nl2 (x : List Char) (h : okPara x = true) :
    pyStrip (x ++ nl2) = x := by
  simp only [okPara, Bool.and_eq_true] at h
  unfold pyStrip
  rw [dropWhile_of_headOk _ (headOk_append x nl2 h.1)]
  rw [show (x ++ nl2).reverse = '\n' :: '\n' :: x.reverse from by simp [nl2]]
  rw [show List.dropWhile isPySpace ('\n' :: '\n' :: x.reverse) =
      List.dropWhile isPySpace x.reverse from by
    simp [List.dropWhile_cons, show isPySpace '\n' = true from rfl]]
  rw [dropWhile_of_headOk _ h.2, List.reverse_reverse]

theorem chunkLoop_spec (maxSize : Nat) (ps : List (List Char)) :
    ∀ g : List (List Char),
      (∀ p ∈ ps, p.length ≤ maxSize) →
      (buf g).length ≤ maxSize + 2 →
      ∃ gs : List (List (List Char)),
        gs.flatten = g ++ ps ∧
        (∀ h ∈ gs, h ≠ [] ∧ (buf h).length ≤ maxSize + 2) ∧
        chunkLoop maxSize ps (buf g) = gs.map (fun h => pyStrip (buf h)) := by
  induction ps with
  | nil =>
    intro g hps hbuf
    by_cases hg : g = []
    · subst hg
      exact ⟨[], by simp, by simp, by simp [chunkLoop, buf]⟩
    · refine ⟨[g], by simp, ?_, ?_⟩
      · intro h hh
        simp only [List.mem_singleton] at hh
        subst hh
        exact ⟨hg, hbuf⟩
      · have hbne : buf g ≠ [] := by
          rw [ne_eq, buf_eq_nil_iff]
          exact hg
        simp [chunkLoop, hbne]
  | cons p ps ih =>
    intro g hps hbuf
    have hp : p.length ≤ maxSize := hps p (by simp)
    have hps2 : ∀ q ∈ ps, q.length ≤ maxSize := fun q hq => hps q (by simp [hq])
    by_cases hfit : (buf g).length + p.length ≤ maxSize
    · have hb2 : (buf (g ++ [p])).length ≤ maxSize + 2 := by
        rw [buf_snoc]
        simp only [List.length_append, show nl2.length = 2 from rfl]
        omega
      obtain ⟨gs, hflat, hprops, heq⟩ := ih (g ++ [p]) hps2 hb2
      refine ⟨gs, ?_, hprops, ?_⟩
      · rw [hflat]
        simp
      · rw [show chunkLoop maxSize (p :: ps) (buf g) =
            chunkLoop maxSize ps (buf g ++ (p ++ nl2)) from by simp [chunkLoop, hfit]]
        rw [← buf_snoc]
        exact heq
    · have hbp : (buf [p]).length ≤ maxSize + 2 := by
        simp only [buf, List.map_cons, List.map_nil, List.flatten_cons, List.flatten_nil,
          List.append_nil, List.length_append, show nl2.length = 2 from rfl]
        omega
      obtain ⟨gs, hflat, hprops, heq⟩ := ih [p] hps2 hbp
      by_cases hg : g = []
      · subst hg
        refine ⟨gs, by simpa using hflat, hprops, ?_⟩
        rw [show chunkLoop maxSize (p :: ps) (buf []) =
            chunkLoop maxSize ps (p ++ nl2) from by simp [chunkLoop, buf, hfit]]
        rw [show (p ++ nl2) = buf [p] from by simp [buf]]
        exact heq
      · have hbne : buf g ≠ [] := by
          rw [ne_eq, buf_eq_nil_iff]
          exact hg
        refine ⟨g :: gs, by simp [hflat], ?_, ?_⟩
        · intro h hh
          rw [List.mem_cons] at hh
          rcases hh with hh | hh
          · subst hh
            exact ⟨hg, hbuf⟩
          · exact hprops h hh
        · rw [show chunkLoop maxSize (p :: ps) (buf g) =
              pyStrip (buf g) :: chunkLoop maxSize ps (p ++ nl2) from by
            simp [chunkLoop, hfit, hbne]]
          rw [show (p ++ nl2) = buf [p] from by simp [buf]]
          rw [heq]
          simp

/-- C4 counterexample: a text longer than the maximum whose blank-line
paragraphs are each within the maximum (one of them whitespace-only) can
produce an EMPTY chunk, refuting the claimed non-emptiness: the
whitespace-only paragraph is closed as a chunk on its own and stripping
erases it. -/
theorem chunk_text_empty_chunk_counterexample :
    10 < (" \n\nAAAAAAAAA".data).length ∧
    (∀ p ∈ pyParaSplit (" \n\nAAAAAAAAA".data), p.length ≤ 10) ∧
    [] ∈ chunk_text_intelligently (" \n\nAAAAAAAAA".data) 10 := by decide

/-- C4 amended: for a text longer than the maximum chunk size whose
blank-line paragraphs each fit in the maximum AND are non-empty with no
leading or trailing whitespace, every chunk is non-empty and within the
maximum, and the chunk list is exactly the list of blank-line joins of a
partition of the paragraph sequence into consecutive non-empty groups, so
the concatenation of the chunks minus the inserted separators reproduces
the paragraph sequence in original order. -/
theorem chunk_text_partition (maxSize : Nat) (t : List Char)
    (hlen : maxSize < t.length)
    (hp : ∀ p ∈ pyParaSplit t, p.length ≤ maxSize ∧ okPara p = true) :
    (∀ c ∈ chunk_text_intelligently t maxSize, c ≠ [] ∧ c.length ≤ maxSize) ∧
    ∃ gs : List (List (List Char)),
      gs.flatten = pyParaSplit t ∧ (∀ g ∈ gs, g ≠ []) ∧
      chunk_text_intelligently t maxSize = gs.map joinParas := by
  have hnot : ¬ t.length ≤ maxSize := by omega
  have hch : chunk_text_intelligently t maxSize = chunkLoop maxSize (pyParaSplit t) [] := by
    unfold chunk_text_intelligently
    rw [if_neg hnot]
  obtain ⟨gs, hflat, hprops, heq⟩ := chunkLoop_spec maxSize (pyParaSplit t) []
    (fun p hpp => (hp p hpp).1) (by simp [buf])
  have heq2 : chunkLoop maxSize (pyParaSplit t) [] = gs.map (fun h => pyStrip (buf h)) := by
    rw [show ([] : List Char) = buf [] from by simp [buf]]
    exact heq
  rw [List.nil_append] at hflat
  have hgsok : ∀ g ∈ gs, ∀ p ∈ g, okPara p = true := by
    intro g hg p hpg
    have hmem : p ∈ gs.flatten := List.mem_flatten.mpr ⟨g, hg, hpg⟩
    rw [hflat] at hmem
    exact (hp p hmem).2
  have hmap : ∀ g ∈ gs, pyStrip (buf g) = joinParas g := by
    intro g hg
    have hne := (hprops g hg).1
    rw [buf_eq_joinParas g hne]
    exact strip_append_nl2 _ (okPara_joinParas g hne (hgsok g hg))
  have hchunks : chunk_text_intelligently t maxSize = gs.map joinParas := by
    rw [hch, heq2]
    exact List.map_congr_left hmap
  refine ⟨?_, gs, hflat, fun g hg => (hprops g hg).1, hchunks⟩
  intro c hc
  rw [hchunks, List.mem_map] at hc
  obtain ⟨g, hg, rfl⟩ := hc
  have hne := (hprops g hg).1
  constructor
  · have hok := okPara_joinParas g hne (hgsok g hg)
    intro hnil
    rw [hnil] at hok
    simp [okPara, headOk] at hok
  · have hlen2 : (buf g).length ≤ maxSize + 2 := (hprops g hg).2
    rw [buf_eq_joinParas g hne] at hlen2
    simp only [List.length_append, show nl2.length = 2 from rfl] at hlen2
    omega

/-- C4 witness: three three-character paragraphs against maximum size 7
give three chunks, one per paragraph. -/
theorem chunk_text_partition_witness :
    (7 < ("aaa\n\nbbb\n\nccc".data).length ∧
      ∀ p ∈ pyParaSplit ("aaa\n\nbbb\n\nccc".data), p.length ≤ 7 ∧ okPara p = true) ∧
    ((∀ c ∈ chunk_text_intelligently ("aaa\n\nbbb\n\nccc".data) 7, c ≠ [] ∧ c.length ≤ 7) ∧
      ∃ gs : List (List (List Char)),
        gs.flatten = pyParaSplit ("aaa\n\nbbb\n\nccc".data) ∧ (∀ g ∈ gs, g ≠ []) ∧
        chunk_text_intelligently ("aaa\n\nbbb\n\nccc".data) 7 = gs.map joinParas) :=
  ⟨⟨by decide, by decide⟩,
    chunk_text_partition 7 ("aaa\n\nbbb\n\nccc".data) (by decide) (by decide)⟩

theorem pyParaScan_nonspace_accum (A : List Char) (hA : ∀ c ∈ A, isPySpace c = false) :
    ∀ (acc s : List Char), pyParaScan acc [] (A ++ s) = pyParaScan (A.reverse ++ acc) [] s := by
  induction A with
  | nil => intro acc s; simp
  | cons c A ih =>
    intro acc s
    have hc : isPySpace c = false := hA c (by simp)
    have hA2 : ∀ d ∈ A, isPySpace d = false := fun d hd => hA d (by simp [hd])
    rw [List.cons_append]
    rw [show pyParaScan acc [] (c :: (A ++ s)) = pyParaScan (c :: acc) [] (A ++ s) from by
      simp [pyParaScan, hc]]
    rw [ih hA2 (c :: acc) s]
    simp [List.reverse_cons, List.append_assoc]

theorem pyParaScan_sep (acc : List Char) (b : Char) (bs : List Char) (hb : isPySpace b = false) :
    pyParaScan acc [] ('\n' :: '\n' :: b :: bs) = acc.reverse :: pyParaScan [b] [] bs := by
  rw [show pyParaScan acc [] ('\n' :: '\n' :: b :: bs) =
      pyParaScan acc ['\n'] ('\n' :: b :: bs) from by
    simp [pyParaScan, show isPySpace '\n' = true from rfl]]
  rw [show pyParaScan acc ['\n'] ('\n' :: b :: bs) =
      pyParaScan acc ['\n', '\n'] (b :: bs) from by
    simp [pyParaScan, show isPySpace '\n' = true from rfl]]
  simp [pyParaScan, hb, show afterLastNl ['\n', '\n'] = some [] from rfl]

theorem pyParaScan_final (A : List Char) (hA : ∀ c ∈ A, isPySpace c = false) (acc : List Char) :
    pyParaScan acc [] A = [acc.reverse ++ A] := by
  have h := pyParaScan_nonspace_accum A hA acc []
  rw [List.append_nil] at h
  rw [h]
  simp [pyParaScan, List.reverse_append]

theorem replicate_nonspace (n : Nat) (c : Char) (hc : isPySpace c = false) :
    ∀ d ∈ List.replicate n c, isPySpace d = false := by
  intro d hd
  rw [List.eq_of_mem_replicate hd]
  exact hc

theorem okPara_replicate (n : Nat) (c : Char) (hc : isPySpace c = false) (hn : n ≠ 0) :
    okPara (List.replicate n c) = true := by
  obtain ⟨m, rfl⟩ : ∃ m, n = m + 1 := ⟨n - 1, by omega⟩
  have h1 : List.replicate (m + 1) c = c :: List.replicate m c := List.replicate_succ c m
  have h2 : (List.replicate (m + 1) c).reverse = c :: List.replicate m c := by
    rw [List.reverse_replicate, h1]
  unfold okPara
  rw [h2, h1]
  simp [headOk, hc]

theorem bigT_split :
    pyParaSplit (List.replicate 20000 'a' ++ nl2 ++ List.replicate 20000 'b') =
      [List.replicate 20000 'a', List.replicate 20000 'b'] := by
  have hA : ∀ c ∈ List.replicate 20000 'a', isPySpace c = false :=
    replicate_nonspace 20000 'a' rfl
  have hB : ∀ c ∈ List.replicate 19999 'b', isPySpace c = false :=
    replicate_nonspace 19999 'b' rfl
  have hb : List.replicate 20000 'b' = 'b' :: List.replicate 19999 'b' := by
    rw [show (20000 : Nat) = 19999 + 1 from by norm_num, List.replicate_succ]
  unfold pyParaSplit
  rw [show List.replicate 20000 'a' ++ nl2 ++ List.replicate 20000 'b' =
      List.replicate 20000 'a' ++ ('\n' :: '\n' :: List.replicate 20000 'b') from by
    rw [List.append_assoc]
    rfl]
  rw [hb]

  rw [pyParaScan_nonspace_accum _ hA [] _]
  rw [pyParaScan_sep _ 'b' _ rfl]
  rw [pyParaScan_final _ hB ['b']]
  rw [List.append_nil, List.reverse_reverse]
  rfl

theorem chunkLoop_pair (maxSize : Nat) (A B : List Char)
    (h1 : A.length ≤ maxSize) (h2 : ¬ ((A ++ nl2).length + B.length ≤ maxSize)) :
    chunkLoop maxSize [A, B] [] = [pyStrip (A ++ nl2), pyStrip (B ++ nl2)] := by
  have e1 : chunkLoop maxSize [A, B] [] = chunkLoop maxSize [B] (A ++ nl2) := by
    show (if ([] : List Char).length + A.length ≤ maxSize then
        chunkLoop maxSize [B] ([] ++ (A ++ nl2))
      else (if ([] : List Char) = [] then [] else [pyStrip []]) ++
        chunkLoop maxSize [B] (A ++ nl2)) = _
    rw [if_pos (by simpa using h1), List.nil_append]
  have e2 : chunkLoop maxSize [B] (A ++ nl2) =
      [pyStrip (A ++ nl2)] ++ chunkLoop maxSize [] (B ++ nl2) := by
    show (if (A ++ nl2).length + B.length ≤ maxSize then
        chunkLoop maxSize [] ((A ++ nl2) ++ (B ++ nl2))
      else (if (A ++ nl2) = [] then [] else [pyStrip (A ++ nl2)]) ++
        chunkLoop maxSize [] (B ++ nl2)) = _
    rw [if_neg h2, if_neg (by simp [nl2])]
  have e3 : chunkLoop maxSize ([] : List (List Char)) (B ++ nl2) = [pyStrip (B ++ nl2)] := by
    show (if (B ++ nl2) = [] then [] else [pyStrip (B ++ nl2)]) = _
    rw [if_neg (by simp [nl2])]
  rw [e1, e2, e3]
  rfl

theorem bigT_chunks :
    chunk_text_intelligently (List.replicate 20000 'a' ++ nl2 ++ List.replicate 20000 'b') 25000 =
      [List.replicate 20000 'a', List.replicate 20000 'b'] := by
  have hlen : (List.replicate 20000 'a' ++ nl2 ++ List.replicate 20000 'b').length = 40002 := by
    rw [List.length_append, List.length_append, List.length_replicate, List.length_replicate,
      show nl2.length = 2 from rfl]
  unfold chunk_text_intelligently
  rw [if_neg (by rw [hlen]; norm_num)]
  rw [bigT_split]
  rw [chunkLoop_pair 25000 _ _
    (by rw [List.length_replicate]; norm_num)
    (by
      rw [List.length_append, List.length_replicate, List.length_replicate,
        show nl2.length = 2 from rfl]
      norm_num)]
  rw [strip_append_nl2 _ (okPara_replicate 20000 'a' rfl (by norm_num))]
  rw [strip_append_nl2 _ (okPara_replicate 20000 'b' rfl (by norm_num))]

theorem create_mindmap_two_chunks (text : List Char) (oracle : Nat → Option (List Char))
    (X Y : List Char) (hch : chunk_text_intelligently text 25000 = [X, Y]) :
    create_mindmap_markdown text oracle =
      match runChunkCalls oracle 0 [X, Y] with
      | none => { result := none, consolidationIssued := false }
      | some (_, k) =>
        match oracle k with
        | none => { result := none, consolidationIssued := true }
        | some t =>
          { result := if t = [] then none else some (pyStrip t),
            consolidationIssued := true } := by
  unfold create_mindmap_markdown
  rw [hch]
  rw [if_pos (show 1 < ([X, Y] : List (List Char)).length from by simp)]

/-- C1 (code bug): a forty-thousand-character text of two paragraphs is
split into two chunks; with a model oracle whose two chunk calls (indices 0
and 1) both return empty text, so that no chunk contributes anything, and
whose next call returns the text M, create_mindmap_markdown nevertheless
issues the consolidation call and returns its text: on the multi-chunk path
the orchestrator neither returns null nor skips consolidation when every
chunk call produced empty text. -/
theorem mindmap_consolidates_despite_all_empty_chunks :
    (chunk_text_intelligently
        (List.replicate 20000 'a' ++ nl2 ++ List.replicate 20000 'b') 25000).length = 2 ∧
    create_mindmap_markdown (List.replicate 20000 'a' ++ nl2 ++ List.replicate 20000 'b')
        (fun k => if k < 2 then some [] else some ['M']) =
      { result := some ['M'], consolidationIssued := true } := by
  constructor
  · rw [bigT_chunks]
    rfl
  · rw [create_mindmap_two_chunks _ _ _ _ bigT_chunks]
    have hrun : ∀ X Y : List Char,
        runChunkCalls (fun k => if k < 2 then some [] else some ['M']) 0 [X, Y] = some ([], 2) := by
      intro X Y
      simp [runChunkCalls, show pyStrip [] = [] from rfl]
    rw [hrun]
    simp [show pyStrip ['M'] = ['M'] from rfl]
